import Mathlib

/-!
Verification of the amplifier-profiles merge-and-compile core.

The development shallowly embeds the Python modules
`amplifier_profiles/merger.py`, `amplifier_profiles/schema.py` and
`amplifier_profiles/compiler.py`.

Python values flowing through the merger (parsed YAML/JSON trees) are
modelled by the inductive type `CVal`; a Python `dict` is modelled as an
insertion-ordered association list `PDict` (Python dicts preserve insertion
order; assignment to an existing key keeps its position, assignment to a
fresh key appends).  Equality between `CVal`s (Python `==`) is the
structural `CVal.beq`.  Helper functions mirror the `dict` primitives used
by the source: membership (`in`), item lookup (`.get`), item assignment,
and `pop`.

Points where the Python source would raise a `TypeError`/`AttributeError`
on values outside the annotated input types (for example a module list
whose elements are not dicts) are marked with a comment; they are modelled
by a harmless total convention, and no theorem below depends on such a
case.  The one dynamically reachable exception inside the compiler — the
`base.agents.include` attribute access, see `compile_profile_to_mount_plan`
below — is modelled explicitly with `Except`.
-/

inductive CVal : Type where
  | null : CVal
  | bool : Bool → CVal
  | int : Int → CVal
  | str : String → CVal
  | list : List CVal → CVal
  | dict : List (String × CVal) → CVal
deriving Repr

/-- A Python dictionary with string keys, as an insertion-ordered
association list. -/
abbrev PDict := List (String × CVal)

mutual

/-- Structural equality of values, modelling Python `==` on parsed trees. -/
def CVal.beq : CVal → CVal → Bool
  | .null, .null => true
  | .bool a, .bool b => a == b
  | .int a, .int b => a == b
  | .str a, .str b => a == b
  | .list xs, .list ys => CVal.beqList xs ys
  | .dict xs, .dict ys => CVal.beqPDict xs ys
  | _, _ => false

def CVal.beqList : List CVal → List CVal → Bool
  | [], [] => true
  | x :: xs, y :: ys => CVal.beq x y && CVal.beqList xs ys
  | _, _ => false

def CVal.beqPDict : List (String × CVal) → List (String × CVal) → Bool
  | [], [] => true
  | (k1, v1) :: xs, (k2, v2) :: ys =>
      k1 == k2 && CVal.beq v1 v2 && CVal.beqPDict xs ys
  | _, _ => false

end

/-- Python `d.get(k)` / `d[k]` on a dict: first matching key. -/
def dictLookup : PDict → String → Option CVal
  | [], _ => none
  | (k1, v1) :: rest, k => if k1 = k then some v1 else dictLookup rest k

/-- Python `k in d`. -/
def dictContains (d : PDict) (k : String) : Bool :=
  (dictLookup d k).isSome

/-- Python `d[k] = v`: replace in place if the key exists, else append. -/
def dictSet : PDict → String → CVal → PDict
  | [], k, v => [(k, v)]
  | (k1, v1) :: rest, k, v =>
      if k1 = k then (k1, v) :: rest else (k1, v1) :: dictSet rest k v

/-- Python `d.pop(k, None)` (the removal part). -/
def dictErase : PDict → String → PDict
  | [], _ => []
  | (k1, v1) :: rest, k =>
      if k1 = k then rest else (k1, v1) :: dictErase rest k

/-- The invariant of a genuine Python dict: keys are pairwise distinct. -/
def nodupKeys : PDict → Bool
  | [] => true
  | (k, _) :: rest => !(dictContains rest k) && nodupKeys rest

/-- Python truthiness of a parsed value (`if value:`). -/
def pyTruthy : CVal → Bool
  | .null => false
  | .bool b => b
  | .int n => n != 0
  | .str s => s != ""
  | .list xs => !xs.isEmpty
  | .dict d => !d.isEmpty

/-- Python truthiness of an optional value (`None` is falsy). -/
def optTruthy : Option CVal → Bool
  | none => false
  | some v => pyTruthy v

/-- Python `item.get(k)` where `item` is expected to be a dict.  On a
non-dict the source would raise `AttributeError`; modelled as `none`. -/
def cvalGet : CVal → String → Option CVal
  | .dict d, k => dictLookup d k
  | _, _ => none

/-- Does a record carry a given field (used by the spec's identifier
auto-detection)? -/
def cvalHasKey (v : CVal) (k : String) : Bool :=
  (cvalGet v k).isSome

/-! ## merger.py: `merge_dicts`

```python
def merge_dicts(parent, child):
    merged = parent.copy()
    for key, value in child.items():
        if key in merged and isinstance(merged[key], dict) and isinstance(value, dict):
            merged[key] = merge_dicts(merged[key], value)
        else:
            merged[key] = value
    return merged
```
-/

mutual

/-- The per-key update of `merge_dicts` when `key in merged` holds:
recurse when both values are dicts, else the child value wins. -/
def mergeDictsVal : CVal → CVal → CVal
  | CVal.dict mv, CVal.dict cv => CVal.dict (mergeDicts mv cv)
  | _, c => c

/-- `merge_dicts(parent, child)`; the first argument is the accumulator
`merged` (initially `parent.copy()`), the second the remaining child
items. -/
def mergeDicts : PDict → PDict → PDict
  | merged, [] => merged
  | merged, (k, v) :: rest =>
      match dictLookup merged k with
      | some mv => mergeDicts (dictSet merged k (mergeDictsVal mv v)) rest
      | none => mergeDicts (dictSet merged k v) rest

end

/-! ## merger.py: `merge_module_items`

```python
def merge_module_items(parent_item, child_item):
    merged = parent_item.copy()
    for key, value in child_item.items():
        if key == "config" and key in merged:
            if isinstance(merged["config"], dict) and isinstance(value, dict):
                merged["config"] = merge_dicts(merged["config"], value)
            else:
                merged["config"] = value
        else:
            merged[key] = value
    return merged
```
-/

/-- `merge_module_items(parent_item, child_item)`; first argument is the
accumulator (initially the parent item), second the remaining child
items. -/
def mergeModuleItems : PDict → PDict → PDict
  | merged, [] => merged
  | merged, (k, v) :: rest =>
      let newVal : CVal :=
        if k = "config" then
          match dictLookup merged "config", v with
          | some (CVal.dict mc), CVal.dict vc => CVal.dict (mergeDicts mc vc)
          | some _, _ => v
          | none, _ => v
        else v
      mergeModuleItems (dictSet merged k newVal) rest

/-! ## merger.py: `merge_module_lists`

```python
def merge_module_lists(parent_list, child_list):
    result = {}
    for item in parent_list:
        module_id = item.get("module")
        if module_id:
            result[module_id] = item.copy()
    for child_item in child_list:
        module_id = child_item.get("module")
        if not module_id:
            continue
        if module_id in result:
            result[module_id] = merge_module_items(result[module_id], child_item)
        else:
            result[module_id] = child_item.copy()
    return list(result.values())
```

The intermediate `result` dict is keyed by the module-id value; it is
modelled as an insertion-ordered association list keyed by `CVal` with
Python `==` (`CVal.beq`) as key equality.  (Python additionally requires
the key to be hashable; an unhashable module id would raise `TypeError`,
a case no record with a string id ever hits.)
-/

/-- Lookup in a `CVal`-keyed insertion-ordered map. -/
def assocFind : List (CVal × CVal) → CVal → Option CVal
  | [], _ => none
  | (k1, v1) :: rest, k => if CVal.beq k1 k then some v1 else assocFind rest k

/-- Assignment in a `CVal`-keyed insertion-ordered map (in place if the
key exists, else append). -/
def assocSet : List (CVal × CVal) → CVal → CVal → List (CVal × CVal)
  | [], k, v => [(k, v)]
  | (k1, v1) :: rest, k, v =>
      if CVal.beq k1 k then (k1, v) :: rest else (k1, v1) :: assocSet rest k v

/-- The generic identifier-keyed module-list merge, with the identifier
field an explicit parameter.  `merge_module_lists` matches elements by
`idField`; elements that are not dicts would raise `AttributeError` at
`item.get` in the source (modelled as having no identifier). -/
def mergeModuleListsBy (idField : String) (parentList childList : List CVal) :
    List CVal :=
  let phase1 : List (CVal × CVal) :=
    parentList.foldl (fun acc item =>
      match cvalGet item idField with
      | some mid => if pyTruthy mid then assocSet acc mid item else acc
      | none => acc) []
  let phase2 : List (CVal × CVal) :=
    childList.foldl (fun acc childItem =>
      match cvalGet childItem idField with
      | some mid =>
          if pyTruthy mid then
            match assocFind acc mid with
            | some existing =>
                match existing, childItem with
                | CVal.dict e, CVal.dict c =>
                    assocSet acc mid (CVal.dict (mergeModuleItems e c))
                | _, _ => assocSet acc mid childItem
            | none => assocSet acc mid childItem
          else acc
      | none => acc) phase1
  phase2.map (·.2)

/-- `merge_module_lists(parent_list, child_list)` as written in the
source: both phases look up the literal `"module"` field. -/
def mergeModuleLists (parentList childList : List CVal) : List CVal :=
  let phase1 : List (CVal × CVal) :=
    parentList.foldl (fun acc item =>
      match cvalGet item "module" with
      | some mid => if pyTruthy mid then assocSet acc mid item else acc
      | none => acc) []
  let phase2 : List (CVal × CVal) :=
    childList.foldl (fun acc childItem =>
      match cvalGet childItem "module" with
      | some mid =>
          if pyTruthy mid then
            match assocFind acc mid with
            | some existing =>
                match existing, childItem with
                | CVal.dict e, CVal.dict c =>
                    assocSet acc mid (CVal.dict (mergeModuleItems e c))
                | _, _ => assocSet acc mid childItem
            | none => assocSet acc mid childItem
          else acc
      | none => acc) phase1
  phase2.map (·.2)

/-- Modelled from the spec: the identifier-field auto-detection the spec
describes for the Module-List Merger — use `name` if any record in either
list carries a `name` field, else `module`. -/
def detectIdField (parentList childList : List CVal) : String :=
  if (parentList ++ childList).any (fun r => cvalHasKey r "name") then "name"
  else "module"

/-- Modelled from the spec: the Module-List Merger as the spec states it,
with the auto-detected identifier field. -/
def mergeModuleListsSpec (parentList childList : List CVal) : List CVal :=
  mergeModuleListsBy (detectIdField parentList childList) parentList childList

example : mergeDicts [("a", CVal.int 1), ("b", CVal.dict [("x", CVal.int 1)])]
    [("b", CVal.dict [("y", CVal.int 2)])] =
    [("a", CVal.int 1), ("b", CVal.dict [("x", CVal.int 1), ("y", CVal.int 2)])] := by rfl

example : mergeModuleLists
    [CVal.dict [("module", CVal.str "A"), ("source", CVal.str "git+A")]]
    [CVal.dict [("module", CVal.str "A"), ("config", CVal.dict [("x", CVal.int 1)])]] =
    [CVal.dict [("module", CVal.str "A"), ("source", CVal.str "git+A"),
      ("config", CVal.dict [("x", CVal.int 1)])]] := by rfl

/-! ## merger.py: `apply_exclusions` and its helpers

```python
def _apply_exclude_all(result, section):
    if section in ("tools", "hooks", "providers"):
        result[section] = []
    elif section == "agents":
        if isinstance(result[section], dict):
            result[section] = {}
        else:
            result[section] = "none"
    else:
        del result[section]
    return result
```
-/

def applyExcludeAll (result : PDict) (sect : String) : PDict :=
  if sect = "tools" ∨ sect = "hooks" ∨ sect = "providers" then
    dictSet result sect (CVal.list [])
  else if sect = "agents" then
    match dictLookup result "agents" with
    | some (CVal.dict _) => dictSet result "agents" (CVal.dict [])
    | _ => dictSet result "agents" (CVal.str "none")
  else dictErase result sect

/-!
```python
def _apply_exclude_list(result, section, exclusion_list):
    if section in ("tools", "hooks", "providers") and isinstance(result[section], list):
        result[section] = [item for item in result[section] if item.get("module") not in exclusion_list]
    elif section == "agents" and isinstance(result[section], list):
        result[section] = [agent for agent in result[section] if agent not in exclusion_list]
    elif section == "agents" and isinstance(result[section], dict):
        result[section] = {k: v for k, v in result[section].items() if k not in exclusion_list}
    return result
```

In the first comprehension, `item.get("module")` evaluates to `None` when
the key is absent (modelled by `CVal.null`); a non-dict `item` would raise
`AttributeError` in the source (same `cvalGet` convention as above).
-/

def applyExcludeList (result : PDict) (sect : String) (exclusionList : List CVal) :
    PDict :=
  if (sect = "tools" ∨ sect = "hooks" ∨ sect = "providers") then
    match dictLookup result sect with
    | some (CVal.list items) =>
        dictSet result sect (CVal.list (items.filter (fun item =>
          !(exclusionList.any (fun e =>
            CVal.beq ((cvalGet item "module").getD CVal.null) e)))))
    | _ => result
  else if sect = "agents" then
    match dictLookup result "agents" with
    | some (CVal.list agents) =>
        dictSet result "agents" (CVal.list (agents.filter (fun a =>
          !(exclusionList.any (fun e => CVal.beq a e)))))
    | some (CVal.dict m) =>
        dictSet result "agents" (CVal.dict (m.filter (fun kv =>
          !(exclusionList.any (fun e => CVal.beq (CVal.str kv.1) e)))))
    | _ => result
  else result

/-!
```python
def _apply_exclude_nested(result, section, nested_exclusions):
    if not isinstance(result.get(section), dict):
        return result
    section_copy = result[section].copy()
    for nested_key, nested_exclusion in nested_exclusions.items():
        if nested_key not in section_copy:
            continue
        if nested_exclusion == "all":
            if isinstance(section_copy[nested_key], list):
                section_copy[nested_key] = []
            else:
                del section_copy[nested_key]
        elif isinstance(nested_exclusion, list) and isinstance(section_copy[nested_key], list):
            section_copy[nested_key] = [item for item in section_copy[nested_key] if item not in nested_exclusion]
    result[section] = section_copy
    return result
```
-/

def applyExcludeNestedLoop : PDict → PDict → PDict
  | sectionCopy, [] => sectionCopy
  | sectionCopy, (nestedKey, nestedExclusion) :: rest =>
      let next : PDict :=
        match dictLookup sectionCopy nestedKey with
        | none => sectionCopy
        | some cur =>
            if CVal.beq nestedExclusion (CVal.str "all") then
              match cur with
              | CVal.list _ => dictSet sectionCopy nestedKey (CVal.list [])
              | _ => dictErase sectionCopy nestedKey
            else
              match nestedExclusion, cur with
              | CVal.list ex, CVal.list items =>
                  dictSet sectionCopy nestedKey (CVal.list (items.filter (fun item =>
                    !(ex.any (fun e => CVal.beq item e)))))
              | _, _ => sectionCopy
      applyExcludeNestedLoop next rest

def applyExcludeNested (result : PDict) (sect : String) (nestedExclusions : PDict) :
    PDict :=
  match dictLookup result sect with
  | some (CVal.dict sectionCopy) =>
      dictSet result sect (CVal.dict (applyExcludeNestedLoop sectionCopy nestedExclusions))
  | _ => result

/-!
```python
def apply_exclusions(inherited, exclusions):
    result = inherited.copy()
    for section, exclusion_value in exclusions.items():
        if section not in result:
            continue
        if exclusion_value == "all":
            result = _apply_exclude_all(result, section)
        elif isinstance(exclusion_value, list):
            result = _apply_exclude_list(result, section, exclusion_value)
        elif isinstance(exclusion_value, dict):
            result = _apply_exclude_nested(result, section, exclusion_value)
    return result
```
-/

def applyExclusionsLoop : PDict → PDict → PDict
  | result, [] => result
  | result, (sect, exclusionValue) :: rest =>
      let next : PDict :=
        if !(dictContains result sect) then result
        else if CVal.beq exclusionValue (CVal.str "all") then
          applyExcludeAll result sect
        else
          match exclusionValue with
          | CVal.list ex => applyExcludeList result sect ex
          | CVal.dict ne => applyExcludeNested result sect ne
          | _ => result
      applyExclusionsLoop next rest

/-- `apply_exclusions(inherited, exclusions)`. -/
def applyExclusions (inherited : PDict) (exclusions : PDict) : PDict :=
  applyExclusionsLoop inherited exclusions

/-! ## merger.py: `merge_profile_dicts`

```python
def merge_profile_dicts(parent, child):
    child_copy = child.copy()
    exclusions = child_copy.pop("exclude", None)
    merged = parent.copy()
    if exclusions:
        merged = apply_exclusions(merged, exclusions)
    for key, child_value in child_copy.items():
        if key not in merged:
            merged[key] = child_value
        elif key in ("hooks", "tools", "providers"):
            merged[key] = merge_module_lists(merged[key], child_value)
        elif isinstance(child_value, dict) and isinstance(merged[key], dict):
            merged[key] = merge_dicts(merged[key], child_value)
        else:
            merged[key] = child_value
    return merged
```

For the `hooks`/`tools`/`providers` branch the source assumes both values
are lists (anything else raises `TypeError`/`AttributeError` during the
iteration inside `merge_module_lists`); the non-list case is modelled as
the child value winning.  A truthy non-dict `exclusions` value would raise
`AttributeError` at `exclusions.items()`; modelled as applying no
exclusions.
-/

def mergeModuleListsVal : CVal → CVal → CVal
  | CVal.list ps, CVal.list cs => CVal.list (mergeModuleLists ps cs)
  | _, c => c

def mergeProfileLoop : PDict → PDict → PDict
  | merged, [] => merged
  | merged, (k, v) :: rest =>
      let next : PDict :=
        match dictLookup merged k with
        | none => dictSet merged k v
        | some mv =>
            if k = "hooks" ∨ k = "tools" ∨ k = "providers" then
              dictSet merged k (mergeModuleListsVal mv v)
            else
              match v, mv with
              | CVal.dict cv, CVal.dict pv => dictSet merged k (CVal.dict (mergeDicts pv cv))
              | _, _ => dictSet merged k v
      mergeProfileLoop next rest

/-- `merge_profile_dicts(parent, child)`. -/
def mergeProfileDicts (parent child : PDict) : PDict :=
  let exclusions := dictLookup child "exclude"
  let childCopy := dictErase child "exclude"
  let merged : PDict :=
    match exclusions with
    | some e =>
        if pyTruthy e then
          match e with
          | CVal.dict ex => applyExclusions parent ex
          | _ => parent
        else parent
    | none => parent
  mergeProfileLoop merged childCopy

/-- Modelled from the spec: the `include`-style agents filter the spec
describes for the Profile Merger when both sides of `agents` are the
Smart-Single-Value list shape — restrict the inherited list to the entries
named by the child, an empty or invalid filter leaving the inherited list
untouched. -/
def agentsFilterSpec (inherited childFilter : List CVal) : List CVal :=
  if childFilter.isEmpty then inherited
  else inherited.filter (fun a => childFilter.any (fun e => CVal.beq a e))

example : mergeProfileDicts
    [("tools", CVal.list [CVal.dict [("module", CVal.str "tool-bash")]])]
    [("exclude", CVal.dict [("tools", CVal.str "all")])] =
    [("tools", CVal.list [])] := by rfl

example : mergeProfileDicts
    [("agents", CVal.list [CVal.str "agent-one", CVal.str "agent-two", CVal.str "agent-three"])]
    [("exclude", CVal.dict [("agents", CVal.list [CVal.str "agent-two"])])] =
    [("agents", CVal.list [CVal.str "agent-one", CVal.str "agent-three"])] := by rfl

/-! ## schema.py

Pydantic models, as Lean structures.  All models are frozen value objects.
`ModuleConfig.source` is `str | dict | None` in the schema; it is modelled
as an optional `CVal` (the compiler only ever tests its truthiness and
copies it).  `ProfileMetadata.extends` is renamed `extendsName` (`extends`
is a Lean keyword).
-/

structure ProfileMetadata where
  name : String
  version : String
  description : String
  model : Option String
  extendsName : Option String

structure ModuleConfig where
  module : String
  source : Option CVal
  config : Option PDict

/-- `ModuleConfig.to_dict`:

```python
result = {"module": self.module}
if self.source is not None:
    result["source"] = self.source
if self.config is not None:
    result["config"] = self.config
return result
```
-/
def ModuleConfig.to_dict (m : ModuleConfig) : PDict :=
  let r : PDict := [("module", CVal.str m.module)]
  let r := match m.source with
    | some s => dictSet r "source" s
    | none => r
  match m.config with
  | some c => dictSet r "config" (CVal.dict c)
  | none => r

structure SessionConfig where
  orchestrator : ModuleConfig
  context : ModuleConfig

structure AgentConfig where
  name : String
  source : Option CVal
  config : Option PDict

/-- `AgentsConfig` exactly as declared in schema.py: fields `items`,
`dirs` and `include_only` (alias `include-only`).  There is no `include`
field — which is what makes the compiler's `base.agents.include` attribute
access raise. -/
structure AgentsConfig where
  items : List AgentConfig
  dirs : Option (List String)
  include_only : Option (List String)

structure Profile where
  profile : ProfileMetadata
  session : SessionConfig
  agents : Option AgentsConfig
  providers : List ModuleConfig
  tools : List ModuleConfig
  hooks : List ModuleConfig

/-- The agent-loader collaborator injected by the app (its implementation
lives outside this core): `list_agents()` and `load_agent(name)` composed
with `Agent.to_mount_plan_fragment()`; a raised load/convert error is the
`Except.error` case. -/
structure AgentLoader where
  list_agents : List String
  load_agent : String → Except String PDict

/-! ## compiler.py

Truthiness notes: `overlay.session.orchestrator` and `.context` are
required pydantic sub-models, hence always truthy; `source` and `config`
go through Python truthiness (`None`, `""`, `{}` are falsy).
-/

/-- Truthiness of an optional config dict (`if module.config:`; also the
value of `module.config or {}`). -/
def configTruthy : Option PDict → Bool
  | none => false
  | some c => !c.isEmpty

/-- Lines 50-88 of `compile_profile_to_mount_plan`: the mount-plan
skeleton built from the base profile before overlays are folded in. -/
def compileSkeleton (base : Profile) : PDict :=
  let orch := base.session.orchestrator
  let ctx := base.session.context
  let sess : PDict :=
    [("orchestrator", CVal.str orch.module), ("context", CVal.str ctx.module)]
  let sess :=
    if optTruthy orch.source then
      dictSet sess "orchestrator_source" (orch.source.getD CVal.null)
    else sess
  let sess :=
    if optTruthy ctx.source then
      dictSet sess "context_source" (ctx.source.getD CVal.null)
    else sess
  let mp : PDict :=
    [("session", CVal.dict sess),
     ("providers", CVal.list (base.providers.map (fun m => CVal.dict m.to_dict))),
     ("tools", CVal.list (base.tools.map (fun m => CVal.dict m.to_dict))),
     ("hooks", CVal.list (base.hooks.map (fun m => CVal.dict m.to_dict))),
     ("agents", CVal.list [])]
  let mp :=
    if configTruthy orch.config then
      dictSet mp "orchestrator" (CVal.dict [("config", CVal.dict (orch.config.getD []))])
    else mp
  if configTruthy ctx.config then
    dictSet mp "context" (CVal.dict [("config", CVal.dict (ctx.config.getD []))])
  else mp

/-- ```python
if "orchestrator" not in mount_plan:
    mount_plan["orchestrator"] = {}
mount_plan["orchestrator"]["config"] = overlay.session.orchestrator.config
```
(note: plain assignment of the overlay's config — no deep merge).  A
non-dict existing block cannot occur for compiled plans. -/
def setNestedConfig (mp : PDict) (key : String) (cfg : PDict) : PDict :=
  let block : PDict :=
    match dictLookup mp key with
    | some (CVal.dict b) => b
    | _ => []
  dictSet mp key (CVal.dict (dictSet block "config" (CVal.dict cfg)))

/-- `_merge_module_list(base_modules, overlay_modules)` from compiler.py.
`base_module["module"]` is a plain index (every record built by `to_dict`
has the key; absence would raise `KeyError`, modelled as `CVal.null`). -/
def compilerMergeModuleList (baseModules : List PDict)
    (overlayModules : List ModuleConfig) : List PDict :=
  let overlayDicts := overlayModules.map ModuleConfig.to_dict
  let getId := fun (t : PDict) => (dictLookup t "module").getD CVal.null
  let phase1 : List (CVal × CVal) :=
    baseModules.foldl (fun acc b => assocSet acc (getId b) (CVal.dict b)) []
  let phase2 : List (CVal × CVal) :=
    overlayDicts.foldl (fun acc o =>
      match assocFind acc (getId o) with
      | some existing =>
          match existing with
          | CVal.dict e => assocSet acc (getId o) (CVal.dict (mergeModuleItems e o))
          | _ => assocSet acc (getId o) (CVal.dict o)
      | none => assocSet acc (getId o) (CVal.dict o)) phase1
  let baseIds := baseModules.map getId
  let fromBase := baseModules.map (fun b =>
    match assocFind phase2 (getId b) with
    | some (CVal.dict t) => t
    | _ => b)
  fromBase ++ overlayDicts.filter (fun o =>
    !(baseIds.any (fun i => CVal.beq i (getId o))))

/-- Reads a module-list value out of the mount plan
(`mount_plan["providers"]` etc.; always a list of dicts by construction). -/
def planReadModules (mp : PDict) (key : String) : List PDict :=
  match dictLookup mp key with
  | some (CVal.list xs) =>
      xs.filterMap (fun v => match v with | CVal.dict d => some d | _ => none)
  | _ => []

/-- Lines 140-156 of compiler.py: the session-dict mutations performed by
`_merge_profile_into_mount_plan` — the overlay's module ids always replace
the plan's (both `if overlay.session.orchestrator:` and
`if overlay.session.context:` guard required pydantic sub-models, which
are always truthy), a truthy overlay source replaces the plan's
`*_source` entry and a falsy one pops it. -/
def overlaySessionUpdate (s : PDict) (overlay : Profile) : PDict :=
  let orch := overlay.session.orchestrator
  let s1 := dictSet s "orchestrator" (CVal.str orch.module)
  let s2 :=
    if optTruthy orch.source then
      dictSet s1 "orchestrator_source" (orch.source.getD CVal.null)
    else dictErase s1 "orchestrator_source"
  let ctx := overlay.session.context
  let s3 := dictSet s2 "context" (CVal.str ctx.module)
  if optTruthy ctx.source then
    dictSet s3 "context_source" (ctx.source.getD CVal.null)
  else dictErase s3 "context_source"

/-- `_merge_profile_into_mount_plan(mount_plan, overlay)`. -/
def mergeProfileIntoMountPlan (mountPlan : PDict) (overlay : Profile) : PDict :=
  let sess : PDict :=
    match dictLookup mountPlan "session" with
    | some (CVal.dict s) => s
    | _ => []
  let orch := overlay.session.orchestrator
  let ctx := overlay.session.context
  let mp := dictSet mountPlan "session" (CVal.dict (overlaySessionUpdate sess overlay))
  let mp :=
    if configTruthy orch.config then setNestedConfig mp "orchestrator" (orch.config.getD [])
    else mp
  let mp :=
    if configTruthy ctx.config then setNestedConfig mp "context" (ctx.config.getD [])
    else mp
  let mp := dictSet mp "providers"
    (CVal.list ((compilerMergeModuleList (planReadModules mp "providers") overlay.providers).map CVal.dict))
  let mp := dictSet mp "tools"
    (CVal.list ((compilerMergeModuleList (planReadModules mp "tools") overlay.tools).map CVal.dict))
  dictSet mp "hooks"
    (CVal.list ((compilerMergeModuleList (planReadModules mp "hooks") overlay.hooks).map CVal.dict))

/-- Lines 107-118 of compiler.py: the per-candidate loading loop, with a
failed load logged and skipped.  This code is unreachable from
`compile_profile_to_mount_plan` because line 100 (`base.agents.include`)
raises first; it is embedded for reference. -/
def loadAgentsLoop (loader : AgentLoader) (names : List String) : List PDict :=
  names.foldl (fun acc name =>
    match loader.load_agent name with
    | Except.ok fragment => acc ++ [dictSet fragment "name" (CVal.str name)]
    | Except.error _ => acc) []

/-- `compile_profile_to_mount_plan(base, overlays, agent_loader)`.

When `base.agents` is set (an `AgentsConfig` instance, always truthy) and
a loader is supplied, the source reaches line 100, `if base.agents.include:`.
`AgentsConfig` (schema.py) declares only `items`, `dirs` and
`include_only`, so this attribute access raises `AttributeError`, which
nothing catches; modelled as `Except.error`.  Otherwise the source takes
the `else` branch and pins `mount_plan["agents"] = []`. -/
def compile_profile_to_mount_plan (base : Profile) (overlays : List Profile)
    (agentLoader : Option AgentLoader) : Except String PDict :=
  let mp := compileSkeleton base
  let mp := overlays.foldl mergeProfileIntoMountPlan mp
  match base.agents, agentLoader with
  | some _, some _ =>
      Except.error "AttributeError: AgentsConfig object has no attribute include"
  | _, _ => Except.ok (dictSet mp "agents" (CVal.list []))

/-! ## Basic lemmas about the Python-dict primitives -/

theorem dictLookup_dictSet_self (d : PDict) (k : String) (v : CVal) :
    dictLookup (dictSet d k v) k = some v := by
  induction d with
  | nil => simp [dictSet, dictLookup]
  | cons hd tl ih =>
      obtain ⟨k1, v1⟩ := hd
      by_cases h : k1 = k
      · simp [dictSet, dictLookup, h]
      · simp [dictSet, dictLookup, h, ih]

theorem dictLookup_dictSet_ne (d : PDict) (k : String) (v : CVal) (k' : String)
    (h : k' ≠ k) : dictLookup (dictSet d k v) k' = dictLookup d k' := by
  have h' : ¬ k = k' := fun he => h he.symm
  induction d with
  | nil => simp [dictSet, dictLookup, h']
  | cons hd tl ih =>
      obtain ⟨k1, v1⟩ := hd
      by_cases h1 : k1 = k
      · subst h1
        simp [dictSet, dictLookup, h']
      · simp only [dictSet, if_neg h1, dictLookup]
        by_cases h2 : k1 = k'
        · simp [h2]
        · simp [h2, ih]

theorem dictLookup_dictErase_ne (d : PDict) (k : String) (k' : String)
    (h : k' ≠ k) : dictLookup (dictErase d k) k' = dictLookup d k' := by
  have h' : ¬ k = k' := fun he => h he.symm
  induction d with
  | nil => simp [dictErase]
  | cons hd tl ih =>
      obtain ⟨k1, v1⟩ := hd
      by_cases h1 : k1 = k
      · subst h1
        simp [dictErase, dictLookup, h']
      · simp only [dictErase, if_neg h1, dictLookup]
        by_cases h2 : k1 = k'
        · simp [h2]
        · simp [h2, ih]

theorem dictContains_dictSet_ne (d : PDict) (k : String) (v : CVal) (k' : String)
    (h : k' ≠ k) : dictContains (dictSet d k v) k' = dictContains d k' := by
  simp [dictContains, dictLookup_dictSet_ne d k v k' h]

theorem dictContains_dictErase_false (d : PDict) (k k' : String)
    (h : dictContains d k' = false) :
    dictContains (dictErase d k) k' = false := by
  induction d with
  | nil => simpa [dictErase] using h
  | cons hd tl ih =>
      obtain ⟨k1, v1⟩ := hd
      by_cases h1 : k1 = k'
      · simp [dictContains, dictLookup, h1] at h
      · simp [dictContains, dictLookup, h1] at h
        by_cases h2 : k1 = k
        · simpa [dictErase, h2, dictContains] using h
        · have := ih (by simpa [dictContains, dictLookup, h1] using h)
          simpa [dictErase, h2, dictContains, dictLookup, h1] using this

theorem dictContains_dictErase_self (d : PDict) (k : String)
    (h : nodupKeys d = true) : dictContains (dictErase d k) k = false := by
  induction d with
  | nil => simp [dictErase, dictContains, dictLookup]
  | cons hd tl ih =>
      obtain ⟨k1, v1⟩ := hd
      simp [nodupKeys] at h
      by_cases h1 : k1 = k
      · subst h1
        simpa [dictErase, dictContains] using h.1
      · have := ih h.2
        simpa [dictErase, h1, dictContains, dictLookup, h1] using this

theorem nodupKeys_dictSet (d : PDict) (k : String) (v : CVal)
    (h : nodupKeys d = true) : nodupKeys (dictSet d k v) = true := by
  induction d with
  | nil => simp [dictSet, nodupKeys, dictContains, dictLookup]
  | cons hd tl ih =>
      obtain ⟨k1, v1⟩ := hd
      simp [nodupKeys] at h
      by_cases h1 : k1 = k
      · subst h1
        simpa [dictSet, nodupKeys] using h
      · have hset : dictContains (dictSet tl k v) k1 = false := by
          have : k1 ≠ k := h1
          simpa [dictContains_dictSet_ne tl k v k1 this] using h.1
        simp [dictSet, h1, nodupKeys, hset, ih h.2]

theorem nodupKeys_dictErase (d : PDict) (k : String)
    (h : nodupKeys d = true) : nodupKeys (dictErase d k) = true := by
  induction d with
  | nil => simp [dictErase, nodupKeys]
  | cons hd tl ih =>
      obtain ⟨k1, v1⟩ := hd
      simp [nodupKeys] at h
      by_cases h1 : k1 = k
      · subst h1
        simpa [dictErase] using h.2
      · have herase : dictContains (dictErase tl k) k1 = false :=
          dictContains_dictErase_false tl k k1 h.1
        simp [dictErase, h1, nodupKeys, herase, ih h.2]

theorem dictContains_false_iff (d : PDict) (k : String) :
    dictContains d k = false ↔ ∀ p ∈ d, p.1 ≠ k := by
  induction d with
  | nil => simp [dictContains, dictLookup]
  | cons hd tl ih =>
      obtain ⟨k1, v1⟩ := hd
      by_cases h1 : k1 = k
      · simp [dictContains, dictLookup, h1]
      · simp [dictContains, dictLookup, h1] at ih ⊢
        exact ih

theorem dictSet_eq_append (d : PDict) (k : String) (v : CVal)
    (h : dictLookup d k = none) : dictSet d k v = d ++ [(k, v)] := by
  induction d with
  | nil => simp [dictSet]
  | cons hd tl ih =>
      obtain ⟨k1, v1⟩ := hd
      by_cases h1 : k1 = k
      · simp [dictLookup, h1] at h
      · simp [dictLookup, h1] at h
        simp [dictSet, h1, ih h]

/-! ## Lemmas about the merge loops -/

theorem dictContains_false_lookup (d : PDict) (k : String)
    (h : dictContains d k = false) : dictLookup d k = none := by
  unfold dictContains at h
  cases hl : dictLookup d k with
  | none => rfl
  | some v => rw [hl] at h; simp at h

theorem dictLookup_append (d1 d2 : PDict) (k : String) :
    dictLookup (d1 ++ d2) k =
      match dictLookup d1 k with
      | some v => some v
      | none => dictLookup d2 k := by
  induction d1 with
  | nil => simp [dictLookup]
  | cons hd tl ih =>
      obtain ⟨k1, v1⟩ := hd
      by_cases h : k1 = k
      · simp [dictLookup, h]
      · simp [dictLookup, h, ih]

theorem mergeDicts_of_disjoint (c : PDict) (m : PDict)
    (hdis : ∀ p ∈ c, dictContains m p.1 = false) (hnd : nodupKeys c = true) :
    mergeDicts m c = m ++ c := by
  induction c generalizing m with
  | nil => simp [mergeDicts]
  | cons hd tl ih =>
      obtain ⟨k, v⟩ := hd
      have hlook : dictLookup m k = none :=
        dictContains_false_lookup m k (hdis (k, v) (List.mem_cons_self _ _))
      simp only [nodupKeys, Bool.and_eq_true, Bool.not_eq_true'] at hnd
      simp only [mergeDicts, hlook]
      rw [dictSet_eq_append m k v hlook]
      have hdis' : ∀ p ∈ tl, dictContains (m ++ [(k, v)]) p.1 = false := by
        intro p hp
        have h1 : dictLookup m p.1 = none :=
          dictContains_false_lookup m p.1 (hdis p (List.mem_cons_of_mem _ hp))
        have h2 : p.1 ≠ k := (dictContains_false_iff tl k).mp hnd.1 p hp
        have h2' : ¬ k = p.1 := fun he => h2 he.symm
        simp [dictContains, dictLookup_append, h1, dictLookup, h2']
      rw [ih (m ++ [(k, v)]) hdis' hnd.2]
      simp

theorem mergeModuleItems_lookup_not_mem (c : PDict) (m : PDict) (k : String)
    (h : ∀ p ∈ c, p.1 ≠ k) :
    dictLookup (mergeModuleItems m c) k = dictLookup m k := by
  induction c generalizing m with
  | nil => rfl
  | cons hd tl ih =>
      obtain ⟨k1, v1⟩ := hd
      have hk1 : k1 ≠ k := h (k1, v1) (List.mem_cons_self _ _)
      have htl : ∀ p ∈ tl, p.1 ≠ k := fun p hp => h p (List.mem_cons_of_mem _ hp)
      simp only [mergeModuleItems]
      rw [ih _ htl, dictLookup_dictSet_ne _ _ _ _ (Ne.symm hk1)]

theorem mergeModuleItems_lookup_of_mem (c : PDict) (m : PDict) (k : String) (v : CVal)
    (hk : k ≠ "config") (hnd : nodupKeys c = true) (hl : dictLookup c k = some v) :
    dictLookup (mergeModuleItems m c) k = some v := by
  induction c generalizing m with
  | nil => simp [dictLookup] at hl
  | cons hd tl ih =>
      obtain ⟨k1, v1⟩ := hd
      simp only [nodupKeys, Bool.and_eq_true, Bool.not_eq_true'] at hnd
      by_cases h1 : k1 = k
      · subst h1
        simp only [dictLookup, if_pos rfl] at hl
        obtain rfl : v1 = v := by injection hl
        have hnc : ¬ k1 = "config" := hk
        simp only [mergeModuleItems, if_neg hnc]
        rw [mergeModuleItems_lookup_not_mem tl _ k1
          ((dictContains_false_iff tl k1).mp hnd.1)]
        exact dictLookup_dictSet_self m k1 _
      · simp only [dictLookup, if_neg h1] at hl
        simp only [mergeModuleItems]
        exact ih _ hnd.2 hl

theorem mergeProfileLoop_lookup_not_mem (c : PDict) (m : PDict) (k : String)
    (h : ∀ p ∈ c, p.1 ≠ k) :
    dictLookup (mergeProfileLoop m c) k = dictLookup m k := by
  induction c generalizing m with
  | nil => rfl
  | cons hd tl ih =>
      obtain ⟨k1, v1⟩ := hd
      have hk1 : k1 ≠ k := h (k1, v1) (List.mem_cons_self _ _)
      have htl : ∀ p ∈ tl, p.1 ≠ k := fun p hp => h p (List.mem_cons_of_mem _ hp)
      simp only [mergeProfileLoop]
      rw [ih _ htl]
      rcases hlm : dictLookup m k1 with _ | mv
      · simp only [hlm]
        exact dictLookup_dictSet_ne _ _ _ _ (Ne.symm hk1)
      · simp only [hlm]
        by_cases hmod : k1 = "hooks" ∨ k1 = "tools" ∨ k1 = "providers"
        · rw [if_pos hmod]
          exact dictLookup_dictSet_ne _ _ _ _ (Ne.symm hk1)
        · rw [if_neg hmod]
          split
          · exact dictLookup_dictSet_ne _ _ _ _ (Ne.symm hk1)
          · exact dictLookup_dictSet_ne _ _ _ _ (Ne.symm hk1)

theorem mergeProfileLoop_lookup_override (c : PDict) (m : PDict) (k : String)
    (cl : List CVal) (hmod : ¬ (k = "hooks" ∨ k = "tools" ∨ k = "providers"))
    (hnd : nodupKeys c = true) (hl : dictLookup c k = some (CVal.list cl)) :
    dictLookup (mergeProfileLoop m c) k = some (CVal.list cl) := by
  induction c generalizing m with
  | nil => simp [dictLookup] at hl
  | cons hd tl ih =>
      obtain ⟨k1, v1⟩ := hd
      simp only [nodupKeys, Bool.and_eq_true, Bool.not_eq_true'] at hnd
      by_cases h1 : k1 = k
      · subst h1
        simp only [dictLookup, if_pos rfl] at hl
        obtain rfl : v1 = CVal.list cl := by injection hl
        simp only [mergeProfileLoop]
        rw [mergeProfileLoop_lookup_not_mem tl _ k1
          ((dictContains_false_iff tl k1).mp hnd.1)]
        rcases hlm : dictLookup m k1 with _ | mv
        · simp only [hlm]
          exact dictLookup_dictSet_self _ _ _
        · simp only [hlm, if_neg hmod]
          exact dictLookup_dictSet_self _ _ _
      · simp only [dictLookup, if_neg h1] at hl
        simp only [mergeProfileLoop]
        exact ih _ hnd.2 hl

theorem dictErase_not_contains (d : PDict) (k : String)
    (h : dictContains d k = false) : dictErase d k = d := by
  induction d with
  | nil => rfl
  | cons hd tl ih =>
      obtain ⟨k1, v1⟩ := hd
      by_cases h1 : k1 = k
      · simp [dictContains, dictLookup, h1] at h
      · simp only [dictContains, dictLookup, if_neg h1] at h
        simp [dictErase, h1, ih h]

theorem applyExcludeAll_contains_false (m : PDict) (sect k : String)
    (hne : k ≠ sect) (h : dictContains m k = false) :
    dictContains (applyExcludeAll m sect) k = false := by
  unfold applyExcludeAll
  by_cases h1 : sect = "tools" ∨ sect = "hooks" ∨ sect = "providers"
  · rw [if_pos h1, dictContains_dictSet_ne _ _ _ _ hne]; exact h
  · rw [if_neg h1]
    by_cases h2 : sect = "agents"
    · subst h2
      rw [if_pos rfl]
      split
      · rw [dictContains_dictSet_ne _ _ _ _ hne]; exact h
      · rw [dictContains_dictSet_ne _ _ _ _ hne]; exact h
    · rw [if_neg h2]
      exact dictContains_dictErase_false _ _ _ h

theorem applyExcludeList_contains_false (m : PDict) (sect k : String)
    (ex : List CVal) (hne : k ≠ sect) (h : dictContains m k = false) :
    dictContains (applyExcludeList m sect ex) k = false := by
  unfold applyExcludeList
  by_cases h1 : sect = "tools" ∨ sect = "hooks" ∨ sect = "providers"
  · rw [if_pos h1]
    split
    · rw [dictContains_dictSet_ne _ _ _ _ hne]; exact h
    · exact h
  · rw [if_neg h1]
    by_cases h2 : sect = "agents"
    · subst h2
      rw [if_pos rfl]
      split
      · rw [dictContains_dictSet_ne _ _ _ _ hne]; exact h
      · rw [dictContains_dictSet_ne _ _ _ _ hne]; exact h
      · exact h
    · rw [if_neg h2]
      exact h

theorem applyExcludeNested_contains_false (m : PDict) (sect k : String)
    (nestedEx : PDict) (hne : k ≠ sect) (h : dictContains m k = false) :
    dictContains (applyExcludeNested m sect nestedEx) k = false := by
  unfold applyExcludeNested
  split
  · rw [dictContains_dictSet_ne _ _ _ _ hne]; exact h
  · exact h

theorem applyExclusionsLoop_contains_false (e : PDict) (m : PDict) (k : String)
    (h : dictContains m k = false) :
    dictContains (applyExclusionsLoop m e) k = false := by
  induction e generalizing m with
  | nil => exact h
  | cons hd tl ih =>
      obtain ⟨sect, ev⟩ := hd
      simp only [applyExclusionsLoop]
      apply ih
      by_cases hc : dictContains m sect = true
      · have hne : k ≠ sect := by
          intro he; subst he; rw [h] at hc; cases hc
        simp only [hc, Bool.not_true, Bool.false_eq_true, if_false]
        by_cases hall : CVal.beq ev (CVal.str "all") = true
        · rw [if_pos hall]
          exact applyExcludeAll_contains_false m sect k hne h
        · rw [if_neg hall]
          cases ev with
          | list ex => exact applyExcludeList_contains_false m sect k ex hne h
          | dict nd => exact applyExcludeNested_contains_false m sect k nd hne h
          | null => exact h
          | bool b => exact h
          | int n => exact h
          | str s => exact h
      · have hc' : dictContains m sect = false := by
          cases hcv : dictContains m sect
          · rfl
          · exact absurd hcv hc
        simp only [hc', Bool.not_false, if_true]
        exact h

theorem applyExclusions_contains_false (inh : PDict) (e : PDict) (k : String)
    (h : dictContains inh k = false) :
    dictContains (applyExclusions inh e) k = false :=
  applyExclusionsLoop_contains_false e inh k h

/-! ## Claims -/

/-- Claim C9: the empty dictionary is a two-sided identity of
`merge_dicts`: `merge_dicts(d, {}) == d` and `merge_dicts({}, d) == d`.
The second identity is stated for well-formed dictionaries (pairwise
distinct keys — the invariant every genuine Python dict satisfies). -/
theorem mergeDicts_empty_identity :
    (∀ d : PDict, mergeDicts d [] = d) ∧
    (∀ d : PDict, nodupKeys d = true → mergeDicts [] d = d) := by
  constructor
  · intro d; rfl
  · intro d hnd
    have hdis : ∀ p ∈ d, dictContains ([] : PDict) p.1 = false := by
      intro p _; rfl
    simpa using mergeDicts_of_disjoint d [] hdis hnd

/-- Claim C9 witness: both identities evaluated at a concrete dictionary. -/
theorem mergeDicts_empty_identity_witness :
    nodupKeys [("a", CVal.int 1), ("b", CVal.str "x")] = true ∧
    mergeDicts [("a", CVal.int 1), ("b", CVal.str "x")] [] =
      [("a", CVal.int 1), ("b", CVal.str "x")] ∧
    mergeDicts [] [("a", CVal.int 1), ("b", CVal.str "x")] =
      [("a", CVal.int 1), ("b", CVal.str "x")] :=
  ⟨rfl, mergeDicts_empty_identity.1 _, mergeDicts_empty_identity.2 _ rfl⟩

def mmiExampleParent : PDict :=
  [("module", CVal.str "A"), ("source", CVal.str "S"),
   ("config", CVal.dict [("x", CVal.int 1)])]

def mmiExampleChild : PDict :=
  [("module", CVal.str "A"), ("config", CVal.dict [("y", CVal.int 2)])]

/-- Claim C5: `merge_module_items` keeps the parent's `source` when the
child omits it and deep-merges configs — concretely, parent
`(module A, source S, config (x 1))` with child `(module A, config (y 2))`
yields `(module A, source S, config (x 1, y 2))`; and a child that carries
a `source` key with any value (an explicit null included) overrides the
parent's. -/
theorem mergeModuleItems_source_semantics :
    mergeModuleItems mmiExampleParent mmiExampleChild =
      [("module", CVal.str "A"), ("source", CVal.str "S"),
       ("config", CVal.dict [("x", CVal.int 1), ("y", CVal.int 2)])] ∧
    (∀ p c : PDict, nodupKeys c = true →
      ((dictContains c "source" = false →
          dictLookup (mergeModuleItems p c) "source" = dictLookup p "source") ∧
       (∀ v : CVal, dictLookup c "source" = some v →
          dictLookup (mergeModuleItems p c) "source" = some v))) := by
  refine ⟨rfl, ?_⟩
  intro p c hnd
  constructor
  · intro hno
    exact mergeModuleItems_lookup_not_mem c p "source"
      ((dictContains_false_iff c "source").mp hno)
  · intro v hv
    exact mergeModuleItems_lookup_of_mem c p "source" v (by decide) hnd hv

/-- Claim C5 witness: source inherited on a concrete omitting child, and
overridden by a concrete child carrying an explicit null source. -/
theorem mergeModuleItems_source_semantics_witness :
    nodupKeys mmiExampleChild = true ∧
    dictContains mmiExampleChild "source" = false ∧
    dictLookup (mergeModuleItems [("module", CVal.str "B"), ("source", CVal.str "P")]
      mmiExampleChild) "source" = some (CVal.str "P") ∧
    dictLookup (mergeModuleItems [("module", CVal.str "B"), ("source", CVal.str "P")]
      [("source", CVal.null)]) "source" = some CVal.null :=
  ⟨rfl, rfl,
   (mergeModuleItems_source_semantics.2 _ mmiExampleChild rfl).1 rfl,
   (mergeModuleItems_source_semantics.2 _ [("source", CVal.null)] rfl).2 CVal.null rfl⟩

def excludeLeakParent : PDict := [("exclude", CVal.int 1)]

def excludeLeakChild : PDict := [("exclude", CVal.dict [("tools", CVal.str "all")])]

/-- Claim C6 counterexample: the claim quantifies over every parent and
child dictionary, but `merge_profile_dicts` only strips the child's
`exclude` key — a parent that itself carries an `exclude` key passes it
through, so the result still has one even though the child's `exclude` was
set. -/
theorem mergeProfileDicts_exclude_leak_cex :
    dictContains excludeLeakChild "exclude" = true ∧
    dictContains (mergeProfileDicts excludeLeakParent excludeLeakChild) "exclude" = true :=
  ⟨rfl, rfl⟩

/-- Claim C6 (amended): when the child has an `exclude` key and the parent
has none, the merge result has no `exclude` key — the child's exclusions
are consumed, never written; an `exclude` key can reach the result only by
inheritance from the parent. -/
theorem mergeProfileDicts_exclude_not_written (p c : PDict)
    (_hc : dictContains c "exclude" = true)
    (hp : dictContains p "exclude" = false)
    (hnd : nodupKeys c = true) :
    dictContains (mergeProfileDicts p c) "exclude" = false := by
  have hcc : dictContains (dictErase c "exclude") "exclude" = false :=
    dictContains_dictErase_self c "exclude" hnd
  have hmem : ∀ q ∈ dictErase c "exclude", q.1 ≠ "exclude" :=
    (dictContains_false_iff _ _).mp hcc
  have hfinal : ∀ merged : PDict, dictContains merged "exclude" = false →
      dictContains (mergeProfileLoop merged (dictErase c "exclude")) "exclude" = false := by
    intro merged hm
    unfold dictContains
    rw [mergeProfileLoop_lookup_not_mem _ _ _ hmem,
      dictContains_false_lookup _ _ hm]
    rfl
  simp only [mergeProfileDicts]
  split
  · split
    · split
      · exact hfinal _ (applyExclusions_contains_false p _ _ hp)
      · exact hfinal p hp
    · exact hfinal p hp
  · exact hfinal p hp

/-- Claim C6 witness: the amended statement at a concrete parent without
an `exclude` key. -/
theorem mergeProfileDicts_exclude_not_written_witness :
    dictContains excludeLeakChild "exclude" = true ∧
    dictContains [("tools", CVal.list [])] "exclude" = false ∧
    nodupKeys excludeLeakChild = true ∧
    dictContains (mergeProfileDicts [("tools", CVal.list [])] excludeLeakChild)
      "exclude" = false :=
  ⟨rfl, rfl, rfl, mergeProfileDicts_exclude_not_written _ _ rfl rfl rfl⟩

def moduleListNameParent : List CVal :=
  [CVal.dict [("name", CVal.str "X"), ("module", CVal.str "A")]]

def moduleListNameChild : List CVal :=
  [CVal.dict [("name", CVal.str "X"), ("module", CVal.str "B")]]

/-- Claim C2 counterexample: both records carry a `name` field, so per the
claim the lists would be matched by `name` (one merged record); the source
always matches by `module` and returns two records. -/
theorem mergeModuleLists_no_autodetect_cex :
    mergeModuleLists moduleListNameParent moduleListNameChild ≠
      mergeModuleListsSpec moduleListNameParent moduleListNameChild := by
  intro h
  have h1 : (mergeModuleLists moduleListNameParent moduleListNameChild).length = 2 := rfl
  have h2 : (mergeModuleListsSpec moduleListNameParent moduleListNameChild).length = 1 := rfl
  rw [h] at h1
  rw [h2] at h1
  exact absurd h1 (by decide)

/-- Claim C2 (amended): no identifier auto-detection happens —
`merge_module_lists` is the generic identifier-keyed merge with the
identifier field fixed to the literal `module`, whatever `name` fields the
records carry. -/
theorem mergeModuleLists_module_keyed (p c : List CVal) :
    mergeModuleLists p c = mergeModuleListsBy "module" p c := rfl

def agentsFilterParent : PDict :=
  [("agents", CVal.list [CVal.str "agent-a", CVal.str "agent-b"])]

def agentsFilterChild : PDict := [("agents", CVal.list [])]

/-- Claim C4 counterexample: per the claim an empty filter leaves the
inherited agents list untouched (as `agentsFilterSpec` does), but
`merge_profile_dicts` has no filter semantics — the child's empty list
replaces the inherited two-element list. -/
theorem mergeProfileDicts_agents_no_filter_cex :
    agentsFilterSpec [CVal.str "agent-a", CVal.str "agent-b"] [] =
      [CVal.str "agent-a", CVal.str "agent-b"] ∧
    dictLookup (mergeProfileDicts agentsFilterParent agentsFilterChild) "agents" =
      some (CVal.list []) ∧
    some (CVal.list []) ≠
      some (CVal.list [CVal.str "agent-a", CVal.str "agent-b"]) := by
  refine ⟨rfl, rfl, ?_⟩
  intro h
  simp at h

/-- Claim C4 (amended): when both sides carry Smart-Single-Value `agents`
lists and the child has no `exclude` directive, the merge is a plain
override — the child's list (the empty list included) replaces the
inherited one; no filter semantics exist. -/
theorem mergeProfileDicts_agents_override (p c : PDict) (pl cl : List CVal)
    (_hp : dictLookup p "agents" = some (CVal.list pl))
    (hc : dictLookup c "agents" = some (CVal.list cl))
    (hx : dictContains c "exclude" = false)
    (hnd : nodupKeys c = true) :
    dictLookup (mergeProfileDicts p c) "agents" = some (CVal.list cl) := by
  simp only [mergeProfileDicts]
  simp only [dictContains_false_lookup c "exclude" hx,
    dictErase_not_contains c "exclude" hx]
  exact mergeProfileLoop_lookup_override c p "agents" cl (by decide) hnd hc

/-- Claim C4 witness: the amended override semantics at the concrete
two-element parent list and empty child list. -/
theorem mergeProfileDicts_agents_override_witness :
    dictLookup agentsFilterParent "agents" =
      some (CVal.list [CVal.str "agent-a", CVal.str "agent-b"]) ∧
    dictLookup agentsFilterChild "agents" = some (CVal.list []) ∧
    dictContains agentsFilterChild "exclude" = false ∧
    nodupKeys agentsFilterChild = true ∧
    dictLookup (mergeProfileDicts agentsFilterParent agentsFilterChild) "agents" =
      some (CVal.list []) :=
  ⟨rfl, rfl, rfl, rfl, mergeProfileDicts_agents_override _ _ _ _ rfl rfl rfl rfl⟩

/-- Claim C7: compiling any base profile with any overlay list and no
agent loader returns normally, with the mount plan's `agents` key present
and equal to the empty list. -/
theorem compile_agents_default (base : Profile) (overlays : List Profile) :
    ∃ mp : PDict, compile_profile_to_mount_plan base overlays none = Except.ok mp ∧
      dictLookup mp "agents" = some (CVal.list []) := by
  refine ⟨dictSet (overlays.foldl mergeProfileIntoMountPlan (compileSkeleton base))
    "agents" (CVal.list []), ?_, dictLookup_dictSet_self _ _ _⟩
  simp only [compile_profile_to_mount_plan]
  cases base.agents <;> rfl

def agentsBaseProfile : Profile :=
  { profile := ⟨"agent-base", "1.0.0", "Base profile with agents config", none, none⟩
    session := ⟨⟨"loop-basic", none, none⟩, ⟨"context-simple", none, none⟩⟩
    agents := some ⟨[], some ["./agents"], none⟩
    providers := []
    tools := []
    hooks := [] }

def okLoader : AgentLoader :=
  { list_agents := ["helper"]
    load_agent := fun _ => Except.ok [("description", CVal.str "A helper agent")] }

/-- Claim C1 (code bug): with an agents configuration present (non-empty
`dirs`, so per the claim the candidate list would be the loader's full
directory listing) and a loader that succeeds on every agent, the compile
does not determine any candidate list — it raises `AttributeError` at
`base.agents.include` (schema.py's `AgentsConfig` has no `include`
field). -/
theorem compile_agents_attribute_error :
    compile_profile_to_mount_plan agentsBaseProfile [] (some okLoader) =
      Except.error "AttributeError: AgentsConfig object has no attribute include" := rfl

def failingLoader : AgentLoader :=
  { list_agents := ["good-agent", "bad-agent"]
    load_agent := fun name =>
      if name = "bad-agent" then Except.error "malformed agent definition"
      else Except.ok [("description", CVal.str "ok")] }

/-- Claim C8 (code bug): the try/except recovery of compiler.py lines
107-118 (embedded as `loadAgentsLoop`, which would indeed skip the failing
agent and keep the good one) is never reached: whenever an agents
configuration and a loader are both present the compile aborts with the
`AttributeError` of line 100 instead of returning normally. -/
theorem compile_no_local_recovery :
    compile_profile_to_mount_plan agentsBaseProfile [] (some failingLoader) =
      Except.error "AttributeError: AgentsConfig object has no attribute include" ∧
    loadAgentsLoop failingLoader ["good-agent", "bad-agent"] =
      [[("description", CVal.str "ok"), ("name", CVal.str "good-agent")]] :=
  ⟨rfl, rfl⟩

/-! ## Helper lemmas for the overlay-fold claims -/

theorem lookup_ite_setNestedConfig (c : Bool) (mp : PDict) (key : String)
    (cfg : PDict) (k : String) (h : k ≠ key) :
    dictLookup (if c then setNestedConfig mp key cfg else mp) k = dictLookup mp k := by
  cases c
  · simp
  · simp only [if_true, setNestedConfig]
    exact dictLookup_dictSet_ne _ _ _ _ h

theorem lookup_ite_set_erase (c : Bool) (d : PDict) (key : String) (v : CVal)
    (k : String) (h : k ≠ key) :
    dictLookup (if c then dictSet d key v else dictErase d key) k = dictLookup d k := by
  cases c
  · simp only [Bool.false_eq_true, if_false]
    exact dictLookup_dictErase_ne _ _ _ h
  · simp only [if_true]
    exact dictLookup_dictSet_ne _ _ _ _ h

theorem contains_ite_set_erase_false (c : Bool) (d : PDict) (key : String) (v : CVal)
    (k : String) (h : k ≠ key) (hd : dictContains d k = false) :
    dictContains (if c then dictSet d key v else dictErase d key) k = false := by
  cases c
  · simp only [Bool.false_eq_true, if_false]
    exact dictContains_dictErase_false _ _ _ hd
  · simp only [if_true]
    rw [dictContains_dictSet_ne _ _ _ _ h]
    exact hd

theorem nodupKeys_ite_set_erase (c : Bool) (d : PDict) (key : String) (v : CVal)
    (h : nodupKeys d = true) :
    nodupKeys (if c then dictSet d key v else dictErase d key) = true := by
  cases c
  · simp only [Bool.false_eq_true, if_false]
    exact nodupKeys_dictErase _ _ h
  · simp only [if_true]
    exact nodupKeys_dictSet _ _ _ h

def c3Base : Profile :=
  { profile := ⟨"base", "1.0.0", "Base", none, none⟩
    session := ⟨⟨"loop-basic", none, some [("a", CVal.int 1)]⟩,
                ⟨"context-simple", none, none⟩⟩
    agents := none
    providers := []
    tools := []
    hooks := [] }

def c3Overlay : Profile :=
  { profile := ⟨"overlay", "1.0.0", "Overlay", none, none⟩
    session := ⟨⟨"loop-streaming", none, some [("b", CVal.int 2)]⟩,
                ⟨"context-simple", none, none⟩⟩
    agents := none
    providers := []
    tools := []
    hooks := [] }

/-- Claim C3 counterexample: the base sets orchestrator config `(a 1)`,
the overlay sets `(b 2)`.  Per the claim the plan's `orchestrator` config
block would be the deep merge `(a 1, b 2)`; the compiled plan instead
holds exactly the overlay's `(b 2)` — the block is replaced, not
deep-merged. -/
theorem compile_overlay_config_replaced_cex :
    (compile_profile_to_mount_plan c3Base [c3Overlay] none).map
      (fun mp => dictLookup mp "orchestrator") =
      Except.ok (some (CVal.dict [("config", CVal.dict [("b", CVal.int 2)])])) ∧
    mergeDicts [("a", CVal.int 1)] [("b", CVal.int 2)] =
      [("a", CVal.int 1), ("b", CVal.int 2)] ∧
    CVal.dict [("b", CVal.int 2)] ≠
      CVal.dict [("a", CVal.int 1), ("b", CVal.int 2)] := by
  refine ⟨rfl, rfl, ?_⟩
  intro h
  simp at h

theorem overlaySessionUpdate_lookup_orchestrator (s : PDict) (ov : Profile) :
    dictLookup (overlaySessionUpdate s ov) "orchestrator" =
      some (CVal.str ov.session.orchestrator.module) := by
  simp only [overlaySessionUpdate]
  rw [lookup_ite_set_erase _ _ _ _ _
      (by decide : ("orchestrator" : String) ≠ "context_source"),
    dictLookup_dictSet_ne _ _ _ _ (by decide : ("orchestrator" : String) ≠ "context"),
    lookup_ite_set_erase _ _ _ _ _
      (by decide : ("orchestrator" : String) ≠ "orchestrator_source"),
    dictLookup_dictSet_self]

theorem overlaySessionUpdate_lookup_context (s : PDict) (ov : Profile) :
    dictLookup (overlaySessionUpdate s ov) "context" =
      some (CVal.str ov.session.context.module) := by
  simp only [overlaySessionUpdate]
  rw [lookup_ite_set_erase _ _ _ _ _
      (by decide : ("context" : String) ≠ "context_source"),
    dictLookup_dictSet_self]

theorem overlaySessionUpdate_orchsrc_removed (s : PDict) (ov : Profile)
    (hnd : nodupKeys s = true) (h : ov.session.orchestrator.source = none) :
    dictContains (overlaySessionUpdate s ov) "orchestrator_source" = false := by
  simp only [overlaySessionUpdate, h, optTruthy, Bool.false_eq_true, if_false]
  apply contains_ite_set_erase_false _ _ _ _ _
    (by decide : ("orchestrator_source" : String) ≠ "context_source")
  rw [dictContains_dictSet_ne _ _ _ _
    (by decide : ("orchestrator_source" : String) ≠ "context")]
  exact dictContains_dictErase_self _ _ (nodupKeys_dictSet s "orchestrator" _ hnd)

theorem overlaySessionUpdate_ctxsrc_removed (s : PDict) (ov : Profile)
    (hnd : nodupKeys s = true) (h : ov.session.context.source = none) :
    dictContains (overlaySessionUpdate s ov) "context_source" = false := by
  simp only [overlaySessionUpdate, h, optTruthy, Bool.false_eq_true, if_false]
  apply dictContains_dictErase_self
  apply nodupKeys_dictSet
  apply nodupKeys_ite_set_erase
  exact nodupKeys_dictSet s "orchestrator" _ hnd

theorem mergeProfileIntoMountPlan_lookup_session (mp : PDict) (ov : Profile)
    (s : PDict) (hs : dictLookup mp "session" = some (CVal.dict s)) :
    dictLookup (mergeProfileIntoMountPlan mp ov) "session" =
      some (CVal.dict (overlaySessionUpdate s ov)) := by
  simp only [mergeProfileIntoMountPlan, hs]
  rw [dictLookup_dictSet_ne _ _ _ _ (by decide : ("session" : String) ≠ "hooks"),
    dictLookup_dictSet_ne _ _ _ _ (by decide : ("session" : String) ≠ "tools"),
    dictLookup_dictSet_ne _ _ _ _ (by decide : ("session" : String) ≠ "providers"),
    lookup_ite_setNestedConfig _ _ _ _ _ (by decide : ("session" : String) ≠ "context"),
    lookup_ite_setNestedConfig _ _ _ _ _ (by decide : ("session" : String) ≠ "orchestrator"),
    dictLookup_dictSet_self]

theorem lookup_setNestedConfig_self (mp : PDict) (key : String) (cfg : PDict) :
    ∃ b : PDict, dictLookup (setNestedConfig mp key cfg) key = some (CVal.dict b) ∧
      dictLookup b "config" = some (CVal.dict cfg) := by
  simp only [setNestedConfig]
  exact ⟨_, dictLookup_dictSet_self _ _ _, dictLookup_dictSet_self _ _ _⟩

/-- Claim C3 (amended): when an overlay is folded into a mount plan, the
scalar session fields are replaced by the overlay (`session.orchestrator`
and `session.context` become the overlay's module ids), and the nested
config blocks under the plan's `orchestrator` and `context` keys are also
replaced — each block's `config` becomes exactly the overlay's truthy
config; the previous block content is not deep-merged in. -/
theorem mergeProfileIntoMountPlan_overlay_semantics (mp : PDict) (ov : Profile)
    (s : PDict) (hs : dictLookup mp "session" = some (CVal.dict s)) :
    (∃ s2 : PDict,
      dictLookup (mergeProfileIntoMountPlan mp ov) "session" = some (CVal.dict s2) ∧
      dictLookup s2 "orchestrator" = some (CVal.str ov.session.orchestrator.module) ∧
      dictLookup s2 "context" = some (CVal.str ov.session.context.module)) ∧
    (∀ cfg : PDict, ov.session.orchestrator.config = some cfg → cfg.isEmpty = false →
      ∃ b : PDict,
        dictLookup (mergeProfileIntoMountPlan mp ov) "orchestrator" = some (CVal.dict b) ∧
        dictLookup b "config" = some (CVal.dict cfg)) ∧
    (∀ cfg : PDict, ov.session.context.config = some cfg → cfg.isEmpty = false →
      ∃ b : PDict,
        dictLookup (mergeProfileIntoMountPlan mp ov) "context" = some (CVal.dict b) ∧
        dictLookup b "config" = some (CVal.dict cfg)) := by
  refine ⟨⟨overlaySessionUpdate s ov,
      mergeProfileIntoMountPlan_lookup_session mp ov s hs,
      overlaySessionUpdate_lookup_orchestrator s ov,
      overlaySessionUpdate_lookup_context s ov⟩, ?_, ?_⟩
  · intro cfg hcfg hne
    have hct : configTruthy ov.session.orchestrator.config = true := by
      rw [hcfg]; simp [configTruthy, hne]
    obtain ⟨b, hb1, hb2⟩ := lookup_setNestedConfig_self
      (dictSet mp "session" (CVal.dict (overlaySessionUpdate s ov))) "orchestrator"
      (ov.session.orchestrator.config.getD [])
    rw [hcfg, Option.getD_some] at hb2
    refine ⟨b, ?_, hb2⟩
    simp only [mergeProfileIntoMountPlan, hs]
    rw [if_pos hct,
      dictLookup_dictSet_ne _ _ _ _ (by decide : ("orchestrator" : String) ≠ "hooks"),
      dictLookup_dictSet_ne _ _ _ _ (by decide : ("orchestrator" : String) ≠ "tools"),
      dictLookup_dictSet_ne _ _ _ _ (by decide : ("orchestrator" : String) ≠ "providers"),
      lookup_ite_setNestedConfig _ _ _ _ _
        (by decide : ("orchestrator" : String) ≠ "context")]
    exact hb1
  · intro cfg hcfg hne
    have hct : configTruthy ov.session.context.config = true := by
      rw [hcfg]; simp [configTruthy, hne]
    obtain ⟨b, hb1, hb2⟩ := lookup_setNestedConfig_self
      (if configTruthy ov.session.orchestrator.config = true then
        setNestedConfig (dictSet mp "session" (CVal.dict (overlaySessionUpdate s ov)))
          "orchestrator" (ov.session.orchestrator.config.getD [])
      else dictSet mp "session" (CVal.dict (overlaySessionUpdate s ov)))
      "context" (ov.session.context.config.getD [])
    rw [hcfg, Option.getD_some] at hb2
    refine ⟨b, ?_, hb2⟩
    simp only [mergeProfileIntoMountPlan, hs]
    rw [if_pos hct,
      dictLookup_dictSet_ne _ _ _ _ (by decide : ("context" : String) ≠ "hooks"),
      dictLookup_dictSet_ne _ _ _ _ (by decide : ("context" : String) ≠ "tools"),
      dictLookup_dictSet_ne _ _ _ _ (by decide : ("context" : String) ≠ "providers")]
    exact hb1

def w3sess : PDict :=
  [("orchestrator", CVal.str "loop-basic"), ("context", CVal.str "context-simple")]

def w3mp : PDict := [("session", CVal.dict w3sess)]

/-- Claim C3 witness: the amended overlay semantics at a concrete plan and
the concrete overlay (module `loop-streaming`, orchestrator config
`(b 2)`). -/
theorem mergeProfileIntoMountPlan_overlay_semantics_witness :
    (∃ s2 : PDict,
      dictLookup (mergeProfileIntoMountPlan w3mp c3Overlay) "session" =
        some (CVal.dict s2) ∧
      dictLookup s2 "orchestrator" = some (CVal.str "loop-streaming") ∧
      dictLookup s2 "context" = some (CVal.str "context-simple")) ∧
    (∃ b : PDict,
      dictLookup (mergeProfileIntoMountPlan w3mp c3Overlay) "orchestrator" =
        some (CVal.dict b) ∧
      dictLookup b "config" = some (CVal.dict [("b", CVal.int 2)])) :=
  ⟨(mergeProfileIntoMountPlan_overlay_semantics w3mp c3Overlay w3sess rfl).1,
   (mergeProfileIntoMountPlan_overlay_semantics w3mp c3Overlay w3sess rfl).2.1
     [("b", CVal.int 2)] rfl rfl⟩

/-- Claim C10: when an overlay's orchestrator (resp. context) module
carries no `source`, folding the overlay into a mount plan leaves the
plan's session without an `orchestrator_source` (resp. `context_source`)
entry — an existing entry from the base or an earlier overlay is popped,
not inherited. -/
theorem mergeProfileIntoMountPlan_source_not_inherited (mp : PDict) (ov : Profile)
    (s : PDict) (hs : dictLookup mp "session" = some (CVal.dict s))
    (hnd : nodupKeys s = true) :
    (ov.session.orchestrator.source = none →
      ∃ s2 : PDict,
        dictLookup (mergeProfileIntoMountPlan mp ov) "session" = some (CVal.dict s2) ∧
        dictContains s2 "orchestrator_source" = false) ∧
    (ov.session.context.source = none →
      ∃ s2 : PDict,
        dictLookup (mergeProfileIntoMountPlan mp ov) "session" = some (CVal.dict s2) ∧
        dictContains s2 "context_source" = false) := by
  constructor
  · intro h
    exact ⟨overlaySessionUpdate s ov,
      mergeProfileIntoMountPlan_lookup_session mp ov s hs,
      overlaySessionUpdate_orchsrc_removed s ov hnd h⟩
  · intro h
    exact ⟨overlaySessionUpdate s ov,
      mergeProfileIntoMountPlan_lookup_session mp ov s hs,
      overlaySessionUpdate_ctxsrc_removed s ov hnd h⟩

def w10sess : PDict :=
  [("orchestrator", CVal.str "loop-basic"), ("context", CVal.str "context-simple"),
   ("orchestrator_source", CVal.str "git+base-orch"),
   ("context_source", CVal.str "git+base-ctx")]

def w10mp : PDict := [("session", CVal.dict w10sess)]

/-- Claim C10 witness: a plan whose session carries both source entries,
overlaid with a profile whose orchestrator and context have no source:
both entries are gone. -/
theorem mergeProfileIntoMountPlan_source_not_inherited_witness :
    (∃ s2 : PDict,
      dictLookup (mergeProfileIntoMountPlan w10mp c3Overlay) "session" =
        some (CVal.dict s2) ∧
      dictContains s2 "orchestrator_source" = false) ∧
    (∃ s2 : PDict,
      dictLookup (mergeProfileIntoMountPlan w10mp c3Overlay) "session" =
        some (CVal.dict s2) ∧
      dictContains s2 "context_source" = false) :=
  ⟨(mergeProfileIntoMountPlan_source_not_inherited w10mp c3Overlay w10sess rfl rfl).1 rfl,
   (mergeProfileIntoMountPlan_source_not_inherited w10mp c3Overlay w10sess rfl rfl).2 rfl⟩
